import Mathlib

/-!
Verification of the spam-detection service core: a shallow embedding of
`src/spam-detector.ts`, `src/ip-blocker.ts`, `src/spam-rules.ts` and the
response sanitizer of `src/gemini-service.ts`, together with theorems that
settle the specification claims.

Modelling conventions:
* JavaScript strings are Lean `String`s; `.length` is modelled by `jsLength`
  (UTF-16 code-unit count).  All concrete inputs in this development are
  ASCII or BMP, where the two agree.
* JavaScript numbers that the spec declares integral (rule severities,
  the four numeric configuration fields) are `Int`; the probability-valued
  analyzer/decision confidences are `ℚ`.  The two float literals `0.7` and
  `0.8` of the source are the exact rationals `q07` and `q08`.
* Fallible parsing (`parseInt`) returns `Option Int`; `none` is NaN.
* The blocklist `Set` is a duplicate-free insertion-ordered list; `Set.add`
  is `setAdd`, `Set.delete` is `List.erase` plus the pre-deletion membership
  test for the returned boolean.
-/

namespace SpamService

/-- Code-unit length of a character under UTF-16: astral code points occupy
two units, everything else one. -/
def charUnits (c : Char) : Nat := if 0x10000 ≤ c.toNat then 2 else 1

/-- UTF-16 code-unit length of a list of characters. -/
def jsLenChars (l : List Char) : Nat := l.foldl (fun n c => n + charUnits c) 0

/-- JavaScript `.length` of a string (UTF-16 code units). -/
def jsLength (s : String) : Nat := jsLenChars s.data

/-- Characters matched by JavaScript `\s` (also the set removed by `trim`). -/
def isJsSpace (c : Char) : Bool :=
  let n := c.toNat
  n == 32 || n == 9 || n == 10 || n == 11 || n == 12 || n == 13 ||
  n == 0xA0 || n == 0x1680 || (decide (0x2000 ≤ n) && decide (n ≤ 0x200A)) ||
  n == 0x2028 || n == 0x2029 || n == 0x202F || n == 0x205F ||
  n == 0x3000 || n == 0xFEFF

/-- JavaScript `String.prototype.trim`. -/
def jsTrim (s : String) : String :=
  String.mk (((s.data.dropWhile isJsSpace).reverse.dropWhile isJsSpace).reverse)

/-- ASCII lower-casing, as JavaScript `toLowerCase` acts on the ASCII texts
this development evaluates (hex digits, keywords, profanity). -/
def jsToLowerChar (c : Char) : Char :=
  if c.isUpper then Char.ofNat (c.toNat + 32) else c

/-- JavaScript `toLowerCase`, restricted to ASCII case folding. -/
def jsToLower (s : String) : String := String.mk (s.data.map jsToLowerChar)

/-- Split a character list at every occurrence of `sep`; mirrors JavaScript
`String.prototype.split` with a one-character separator (`""` splits to
`[""]`, `"::"` at `:` splits to `["", "", ""]`). -/
def splitOnChar (sep : Char) : List Char → List (List Char)
  | [] => [[]]
  | c :: rest =>
    if c == sep then [] :: splitOnChar sep rest
    else
      match splitOnChar sep rest with
      | g :: gs => (c :: g) :: gs
      | [] => [[c]]

/-- JavaScript `s.split(sep)` for a one-character separator. -/
def jsSplit (s : String) (sep : Char) : List String :=
  (splitOnChar sep s.data).map String.mk

/-- Decimal digits to a natural number. -/
def digitsToNat (l : List Char) : Nat := l.foldl (fun a c => a * 10 + (c.toNat - 48)) 0

/-- Longest leading run of decimal digits, or `none` when there is none. -/
def leadingDigits (l : List Char) : Option Nat :=
  let ds := l.takeWhile Char.isDigit
  if ds.isEmpty then none else some (digitsToNat ds)

/-- JavaScript `parseInt(s, 10)`: skip leading whitespace, read an optional
sign and then the longest run of decimal digits, ignoring any trailing junk;
`none` models NaN (no digits found). -/
def jsParseInt (s : String) : Option Int :=
  match s.data.dropWhile isJsSpace with
  | '-' :: rest => (leadingDigits rest).map (fun n => -(n : Int))
  | '+' :: rest => (leadingDigits rest).map (fun n => (n : Int))
  | l => (leadingDigits l).map (fun n => (n : Int))

/-- Substring containment on character lists (JavaScript `includes`). -/
def containsSeq (needle : List Char) : List Char → Bool
  | [] => needle.isEmpty
  | c :: rest => needle.isPrefixOf (c :: rest) || containsSeq needle rest

/-! ## Rule predicates (`src/spam-rules.ts`) -/

/-- A character counted by the `[A-Z]` class. -/
def capsCount (t : String) : Nat := t.data.countP Char.isUpper

/-- Characters that `.` does not match in a JavaScript regex. -/
def isLineTermChar (c : Char) : Bool :=
  let n := c.toNat
  n == 10 || n == 13 || n == 0x2028 || n == 0x2029

/-- Matches of `(.)\1{4,}`: five or more consecutive equal characters, the
repeated character not being a line terminator. -/
def hasRepeatRun : List Char → Bool
  | [] => false
  | c :: rest =>
    (!isLineTermChar c && decide (4 ≤ (rest.takeWhile (fun x => x == c)).length)) ||
    hasRepeatRun rest

/-- Code points matched by the emoji alternation of the `excessive_emojis`
rule. -/
def isEmojiChar (c : Char) : Bool :=
  let n := c.toNat
  decide (0x1F600 ≤ n ∧ n ≤ 0x1F64F) || decide (0x1F300 ≤ n ∧ n ≤ 0x1F5FF) ||
  decide (0x1F680 ≤ n ∧ n ≤ 0x1F6FF) || decide (0x1F1E0 ≤ n ∧ n ≤ 0x1F1FF) ||
  decide (0x2600 ≤ n ∧ n ≤ 0x26FF) || decide (0x2700 ≤ n ∧ n ≤ 0x27BF)

/-- Characters matched by `\w`. -/
def isWordChar (c : Char) : Bool := c.isAlphanum || c == '_'

/-- One step of the global scan for `@\w+` / `#\w+` tokens: on the marker
followed by at least one word character the match consumes the whole word
run, otherwise the scan advances one position.  Fuel bounds the recursion;
`countTokens` supplies enough for the scan to finish. -/
def countTokenAux (marker : Char) : Nat → List Char → Nat
  | 0, _ => 0
  | _, [] => 0
  | fuel + 1, c :: rest =>
    if c == marker then
      let run := rest.takeWhile isWordChar
      if run.isEmpty then countTokenAux marker fuel rest
      else 1 + countTokenAux marker fuel (rest.dropWhile isWordChar)
    else countTokenAux marker fuel rest

/-- Number of matches of `@\w+` (for `marker = '@'`) or `#\w+` in a string. -/
def countTokens (marker : Char) (s : String) : Nat :=
  countTokenAux marker (s.data.length + 1) s.data

/-- Global scan for `https?:\/\/[^\s]+`: at a scheme occurrence the match
takes the maximal run of non-whitespace after it (at least one character),
and the scan resumes after the match; otherwise it advances one position. -/
def findURLsAux : Nat → List Char → List (List Char)
  | 0, _ => []
  | _, [] => []
  | fuel + 1, c :: rest =>
    let l := c :: rest
    let isHttps := "https://".data.isPrefixOf l
    let isHttp := "http://".data.isPrefixOf l
    if isHttps || isHttp then
      let scheme := if isHttps then "https://".data else "http://".data
      let afterScheme := l.drop scheme.length
      let run := afterScheme.takeWhile (fun x => !isJsSpace x)
      if run.isEmpty then findURLsAux fuel rest
      else (scheme ++ run) :: findURLsAux fuel (afterScheme.dropWhile (fun x => !isJsSpace x))
    else findURLsAux fuel rest

/-- All matches of `https?:\/\/[^\s]+` in a string. -/
def findURLs (s : String) : List (List Char) := findURLsAux (s.data.length + 1) s.data

/-- Rule `excessive_caps`: uppercase ratio above `0.7` and length above 10.
The float comparison `caps / len > 0.7` is written with the division cleared
(`7 * len < 10 * caps`); at `len = 0` both sides agree (NaN compares false,
`0 < 0` is false). -/
def excessiveCapsCheck (t : String) : Bool :=
  decide (7 * jsLength t < 10 * capsCount t) && decide (10 < jsLength t)

/-- Rule `repeated_characters`. -/
def repeatedCharactersCheck (t : String) : Bool := hasRepeatRun t.data

/-- Rule `excessive_emojis`. -/
def excessiveEmojisCheck (t : String) : Bool :=
  let c := t.data.countP isEmojiChar
  decide (5 < c) || (decide (2 < c) && decide (jsLength t < 50))

/-- Rule `suspicious_urls`. -/
def suspiciousURLsCheck (t : String) : Bool :=
  let urls := findURLs t
  decide (2 < urls.length) ||
  urls.any (fun u =>
    containsSeq "bit.ly".data u || containsSeq "tinyurl".data u ||
    containsSeq "t.co".data u || decide (100 < jsLenChars u))

/-- The fixed phrase list of the `spam_keywords` rule. -/
def spamKeywordsList : List String :=
  ["free money", "click here", "limited time", "act now", "guaranteed",
   "make money fast", "work from home", "lose weight fast", "miracle cure",
   "buy now", "special offer", "congratulations you won", "claim your prize"]

/-- Rule `spam_keywords`. -/
def spamKeywordsCheck (t : String) : Bool :=
  let lower := jsToLower t
  spamKeywordsList.any (fun k => containsSeq k.data lower.data)

/-- Rule `excessive_mentions`. -/
def excessiveMentionsCheck (t : String) : Bool := decide (3 < countTokens '@' t)

/-- Rule `excessive_hashtags`. -/
def excessiveHashtagsCheck (t : String) : Bool :=
  let h := countTokens '#' t
  decide (5 < h) || (decide (2 < h) && decide (jsLength t < 50))

/-- The fixed word list of the `profanity_filter` rule. -/
def profanityList : List String := ["fuck", "shit", "bitch", "asshole", "damn", "crap"]

/-- Rule `profanity_filter`. -/
def profanityCheck (t : String) : Bool :=
  let lower := jsToLower t
  profanityList.any (fun w => containsSeq w.data lower.data)

/-- Rule `too_short`. -/
def tooShortCheck (t : String) : Bool := decide (jsLength (jsTrim t) < 3)

/-- Rule `all_numbers`. -/
def allNumbersCheck (t : String) : Bool :=
  let clean := t.data.filter Char.isAlphanum
  !clean.isEmpty && clean.all Char.isDigit

/-- A detection rule: name, predicate over the post text, severity weight,
human-readable description. -/
structure SpamRule where
  name : String
  check : String → Bool
  severity : Int
  description : String

/-- The rule table of `src/spam-rules.ts`, in source order. -/
def spamRules : List SpamRule :=
  [{ name := "excessive_caps", check := excessiveCapsCheck, severity := 3,
     description := "Post contains excessive capital letters" },
   { name := "repeated_characters", check := repeatedCharactersCheck, severity := 2,
     description := "Post contains repeated characters (5+ in a row)" },
   { name := "excessive_emojis", check := excessiveEmojisCheck, severity := 2,
     description := "Post contains excessive emojis" },
   { name := "suspicious_urls", check := suspiciousURLsCheck, severity := 5,
     description := "Post contains suspicious or excessive URLs" },
   { name := "spam_keywords", check := spamKeywordsCheck, severity := 5,
     description := "Post contains spam keywords" },
   { name := "excessive_mentions", check := excessiveMentionsCheck, severity := 3,
     description := "Post contains excessive mentions" },
   { name := "excessive_hashtags", check := excessiveHashtagsCheck, severity := 2,
     description := "Post contains excessive hashtags" },
   { name := "profanity_filter", check := profanityCheck, severity := 3,
     description := "Post contains profanity" },
   { name := "too_short", check := tooShortCheck, severity := 1,
     description := "Post is too short to be meaningful" },
   { name := "all_numbers", check := allNumbersCheck, severity := 2,
     description := "Post contains only numbers" }]

/-! ## IP blocker (`src/ip-blocker.ts`) -/

/-- One alternative of the anchored IPv4 octet pattern
`25[0-5]|2[0-4][0-9]|[01]?[0-9][0-9]?`. -/
def isOctet (s : String) : Bool :=
  match s.data with
  | [a] => a.isDigit
  | [a, b] => a.isDigit && b.isDigit
  | [a, b, c] =>
    (a == '2' && b == '5' && c.isDigit && decide (c ≤ '5')) ||
    (a == '2' && b.isDigit && decide (b ≤ '4') && c.isDigit) ||
    ((a == '0' || a == '1') && b.isDigit && c.isDigit)
  | _ => false

/-- The anchored IPv4 regex of `isValidIP`: four dot-separated octets. -/
def isValidIPv4 (ip : String) : Bool :=
  match jsSplit ip '.' with
  | [a, b, c, d] => isOctet a && isOctet b && isOctet c && isOctet d
  | _ => false

/-- Hexadecimal digit as in `[0-9a-fA-F]`. -/
def isHexDigitChar (c : Char) : Bool :=
  c.isDigit || (decide ('a' ≤ c) && decide (c ≤ 'f')) ||
  (decide ('A' ≤ c) && decide (c ≤ 'F'))

/-- The simplified IPv6 regex of `isValidIP`: eight colon-separated groups of
one to four hex digits, or the literals `::` and `::1`. -/
def isValidIPv6 (ip : String) : Bool :=
  ip == "::1" || ip == "::" ||
  (let gs := jsSplit ip ':'
   gs.length == 8 &&
   gs.all (fun g =>
     decide (1 ≤ g.data.length) && decide (g.data.length ≤ 4) &&
     g.data.all isHexDigitChar))

/-- `IPBlocker.isValidIP`. -/
def isValidIP (ip : String) : Bool := isValidIPv4 ip || isValidIPv6 ip

/-- `IPBlocker.isValidCIDR`: exactly one slash, a valid address part, and a
`parseInt`-parsed mask within 0–32 (address with a dot) or 0–128. -/
def isValidCIDR (cidr : String) : Bool :=
  match jsSplit cidr '/' with
  | [ip, maskStr] =>
    isValidIP ip &&
    (match jsParseInt maskStr with
     | none => false
     | some n =>
       if ip.data.contains '.' then decide (0 ≤ n) && decide (n ≤ 32)
       else decide (0 ≤ n) && decide (n ≤ 128))
  | _ => false

/-- `IPBlocker.ipv4ToNumber`: fold the dot-separated octets through
`(acc << 8) + parseInt(octet)` and reinterpret unsigned (`>>> 0`).  The
per-step wrap at `2^32` reproduces the JavaScript 32-bit shift pipeline;
`getD 0` is only exercised on non-numeric octets, which validated addresses
exclude. -/
def ipv4ToNumber (ip : String) : Nat :=
  (((jsSplit ip '.').foldl
      (fun acc oct => (acc * 256 + ((jsParseInt oct).getD 0)) % 4294967296)
      (0 : Int))).toNat

/-- The mask `(0xFFFFFFFF << (32 - maskBits)) >>> 0` under JavaScript shift
semantics: the shift count is reduced mod 32, so `maskBits = 0` yields the
full mask; `none` (NaN mask bits) also shifts by 0. -/
def jsMask (maskBits : Option Int) : Nat :=
  match maskBits with
  | none => 4294967295
  | some b => 4294967296 - 2 ^ ((32 - b) % 32).toNat

/-- Modelled from the spec's words: the 32-bit mask whose top `p` bits are
ones, for a prefix length `p ≤ 32`. -/
def specMask (p : Nat) : Nat := 4294967296 - 2 ^ (32 - p)

/-- `IPBlocker.isIPv4InRange`, with the mask bits already parsed
(`none` models a NaN `maskBits`). -/
def isIPv4InRange (ip network : String) (maskBits : Option Int) : Bool :=
  let mask := jsMask maskBits
  (ipv4ToNumber ip &&& mask) == (ipv4ToNumber network &&& mask)

/-- `IPBlocker.expandIPv6`: the two literal abbreviations are expanded,
everything else is lower-cased. -/
def expandIPv6 (ip : String) : String :=
  if ip == "::" then "0000:0000:0000:0000:0000:0000:0000:0000"
  else if ip == "::1" then "0000:0000:0000:0000:0000:0000:0000:0001"
  else jsToLower ip

/-- `IPBlocker.isIPv6InRange`: compare the leading `floor(maskBits / 4)`
characters of the expanded forms (`substring` clamps a negative or NaN count
to 0). -/
def isIPv6InRange (ip network : String) (maskBits : Option Int) : Bool :=
  let ipE := expandIPv6 ip
  let nE := expandIPv6 network
  if ipE == "" || nE == "" then false
  else
    let hexCharsToCheck : Nat :=
      match maskBits with
      | none => 0
      | some b => (b / 4).toNat
    ipE.data.take hexCharsToCheck == nE.data.take hexCharsToCheck

/-- `IPBlocker.isIPInRange`: split the CIDR, parse the mask, and dispatch on
whether both strings look IPv4 (contain `.`) or IPv6 (contain `:`). -/
def isIPInRange (ip cidr : String) : Bool :=
  match jsSplit cidr '/' with
  | [] => false
  | network :: rest =>
    let maskBits := rest.head?.bind jsParseInt
    if ip.data.contains '.' && network.data.contains '.' then
      isIPv4InRange ip network maskBits
    else if ip.data.contains ':' && network.data.contains ':' then
      isIPv6InRange ip network maskBits
    else false

/-- The blocklist: a duplicate-free insertion-ordered list standing for the
`Set` of exact IP strings, and the list of CIDR strings. -/
structure IPBlocklist where
  blockedIPs : List String
  blockedRanges : List String
deriving DecidableEq

/-- The freshly constructed blocklist. -/
def emptyBlocklist : IPBlocklist := { blockedIPs := [], blockedRanges := [] }

/-- Result type of `IPBlocker.validateIP`. -/
structure IPValidationResult where
  isBlocked : Bool
  reason : Option String
  blockedIP : Option String
deriving DecidableEq

/-- `IPBlocker.validateIP`: fail open on empty or invalid input, then exact
match, then first matching CIDR range in insertion order. -/
def validateIP (bl : IPBlocklist) (ip : String) : IPValidationResult :=
  if ip == "" || !isValidIP ip then
    { isBlocked := false, reason := none, blockedIP := none }
  else if bl.blockedIPs.contains ip then
    { isBlocked := true, reason := some "IP address is in blocklist", blockedIP := some ip }
  else
    match bl.blockedRanges.find? (fun range => isIPInRange ip range) with
    | some range =>
      { isBlocked := true, reason := some ("IP address is in blocked range: " ++ range),
        blockedIP := some ip }
    | none => { isBlocked := false, reason := none, blockedIP := none }

/-- `Set.add`: append when absent, keep insertion order. -/
def setAdd (l : List String) (x : String) : List String :=
  if l.contains x then l else l ++ [x]

/-- `IPBlocker.addIP`: reject invalid addresses, otherwise add the exact
string to the set. -/
def addIP (bl : IPBlocklist) (ip : String) : Bool × IPBlocklist :=
  if !isValidIP ip then (false, bl)
  else (true, { bl with blockedIPs := setAdd bl.blockedIPs ip })

/-- `IPBlocker.removeIP`: `Set.delete` returns whether the element was
present. -/
def removeIP (bl : IPBlocklist) (ip : String) : Bool × IPBlocklist :=
  (bl.blockedIPs.contains ip, { bl with blockedIPs := bl.blockedIPs.erase ip })

/-- `IPBlocker.addRange`: reject invalid CIDRs; adding a duplicate is a no-op
that still returns true. -/
def addRange (bl : IPBlocklist) (cidr : String) : Bool × IPBlocklist :=
  if !isValidCIDR cidr then (false, bl)
  else
    (true,
     { bl with
       blockedRanges :=
         if bl.blockedRanges.contains cidr then bl.blockedRanges
         else bl.blockedRanges ++ [cidr] })

/-- `IPBlocker.removeRange`: splice out the first occurrence when present. -/
def removeRange (bl : IPBlocklist) (cidr : String) : Bool × IPBlocklist :=
  if bl.blockedRanges.contains cidr then
    (true, { bl with blockedRanges := bl.blockedRanges.erase cidr })
  else (false, bl)

/-! ## Analyzer verdicts (`src/gemini-service.ts`) -/

/-- The three severity labels a sanitized verdict can carry. -/
inductive AISeverity
  | low
  | medium
  | high
deriving DecidableEq

/-- A sanitized analyzer verdict (`AIDetectionResult`). -/
structure AIDetectionResult where
  isSpam : Bool
  confidence : ℚ
  reasoning : String
  categories : List String
  severity : AISeverity
deriving DecidableEq

/-- The raw shape `JSON.parse` can deliver to `parseAIResponse`: each field
possibly missing or non-coercible (`none`), the severity an arbitrary
string. -/
structure RawVerdict where
  isSpam : Bool
  confidence : Option ℚ
  reasoning : Option String
  categories : Option (List String)
  severityField : String

/-- The severity sanitizer: keep `low`/`medium`/`high`, force anything else
to `low`. -/
def parseSeverity (s : String) : AISeverity :=
  if s == "high" then AISeverity.high
  else if s == "medium" then AISeverity.medium
  else AISeverity.low

/-- The field-by-field sanitizer of `GeminiSpamDetector.parseAIResponse`
(lines 277–283): confidence is clamped into `[0, 1]` and defaults to 0,
reasoning and categories get their fixed defaults. -/
def sanitizeVerdict (raw : RawVerdict) : AIDetectionResult :=
  { isSpam := raw.isSpam,
    confidence := max 0 (min 1 (raw.confidence.getD 0)),
    reasoning := raw.reasoning.getD "No reasoning provided",
    categories := raw.categories.getD [],
    severity := parseSeverity raw.severityField }

/-- The fixed fallback verdict returned when no JSON object can be extracted
or parsing throws. -/
def fallbackVerdict : AIDetectionResult :=
  { isSpam := false, confidence := 0, reasoning := "Failed to analyze content with AI",
    categories := ["analysis_error"], severity := AISeverity.low }

/-- The analyzer outcomes `detectSpam` can actually observe: no verdict
(disabled, unconfigured, transport failure or a thrown error), the fallback
verdict, or a sanitized parse of arbitrary raw data. -/
def analyzerOutcome (ai : Option AIDetectionResult) : Prop :=
  ai = none ∨ ai = some fallbackVerdict ∨ ∃ raw, ai = some (sanitizeVerdict raw)

/-! ## Spam detector (`src/spam-detector.ts`) -/

/-- The three decision actions. -/
inductive Action
  | allow
  | flag
  | reject
deriving DecidableEq

/-- A post entering one decision. -/
structure TwitterPost where
  text : Option String
  username : Option String
  timestamp : Option String
  clientIP : Option String
deriving DecidableEq

/-- The detector configuration.  The spec's data model types the four numeric
fields as integers. -/
structure DetectionConfig where
  spamThreshold : Int
  flagThreshold : Int
  maxTextLength : Int
  minTextLength : Int
  enableIPBlocking : Bool
  enableAIDetection : Bool
  geminiApiKey : Option String
deriving DecidableEq

/-- The constructor defaults of `SpamDetector` (no key in the environment). -/
def defaultConfig : DetectionConfig :=
  { spamThreshold := 6, flagThreshold := 3, maxTextLength := 280, minTextLength := 1,
    enableIPBlocking := true, enableAIDetection := false, geminiApiKey := none }

/-- The decision returned by `detectSpam`. -/
structure SpamDetectionResult where
  isSpam : Bool
  confidence : ℚ
  reasons : List String
  action : Action
  aiAnalysis : Option AIDetectionResult
deriving DecidableEq

/-- Result type of `SpamDetector.validatePost`. -/
structure ValidationOutcome where
  isValid : Bool
  reasons : List String
deriving DecidableEq

/-- The interpolated over-length violation message. -/
def maxLengthMsg (cfg : DetectionConfig) : String :=
  "Post exceeds maximum length of " ++ toString cfg.maxTextLength ++ " characters"

/-- The interpolated under-length violation message. -/
def minLengthMsg (cfg : DetectionConfig) : String :=
  "Post is below minimum length of " ++ toString cfg.minTextLength ++ " characters"

/-- `SpamDetector.validatePost`: `none` models a missing or non-string text
(the `!post.text || typeof post.text !== 'string'` branch, which an empty
string also takes); otherwise both length bounds are checked. -/
def validatePost (cfg : DetectionConfig) (post : TwitterPost) : ValidationOutcome :=
  let reasons : List String :=
    match post.text with
    | none => ["Post text is required and must be a string"]
    | some t =>
      if t == "" then ["Post text is required and must be a string"]
      else
        (if cfg.maxTextLength < (jsLength t : Int) then [maxLengthMsg cfg] else []) ++
        (if (jsLength (jsTrim t) : Int) < cfg.minTextLength then [minLengthMsg cfg] else [])
  { isValid := reasons.isEmpty, reasons := reasons }

/-- The float literal `0.7` as an already-normalized rational. -/
def q07 : ℚ := ⟨7, 10, by norm_num, by norm_num⟩

/-- The float literal `0.8` as an already-normalized rational. -/
def q08 : ℚ := ⟨4, 5, by norm_num, by norm_num⟩

/-- The rules a post triggers, in rule-table order. -/
def triggeredRules (t : String) : List SpamRule :=
  spamRules.filter (fun rule => rule.check t)

/-- `totalSeverity`: the severities of the triggered rules summed by
`reduce`. -/
def totalSeverityOf (t : String) : Int :=
  (triggeredRules t).foldl (fun sum rule => sum + rule.severity) 0

/-- The base reasons: descriptions of the triggered rules. -/
def triggeredDescriptions (t : String) : List String :=
  (triggeredRules t).map (fun rule => rule.description)

/-- The analyzer verdict `detectSpam` works with: the outcome of the
analyzer call when AI detection is enabled, absent otherwise.  An `ai` of
`none` covers an unconfigured detector, a provider failure and a thrown
error alike. -/
def effectiveAI (cfg : DetectionConfig) (ai : Option AIDetectionResult) :
    Option AIDetectionResult :=
  if cfg.enableAIDetection then ai else none

/-- The reason list after the analyzer step: rule descriptions, then the
`AI detected spam` reason when the verdict is spam with confidence above
`0.7`. -/
def reasonsOf (t : String) (aiA : Option AIDetectionResult) : List String :=
  triggeredDescriptions t ++
  (match aiA with
   | some a =>
     if a.isSpam && decide (q07 < a.confidence) then
       ["AI detected spam: " ++ a.reasoning]
     else []
   | none => [])

/-- The synthesis stage of `detectSpam` (lines 75–110): confidence from the
rule score capped at 1 and maxed with a spam verdict's confidence, then the
override / baseline action split. -/
def synthesize (cfg : DetectionConfig) (totalSeverity : Int) (reasons : List String)
    (aiA : Option AIDetectionResult) : SpamDetectionResult :=
  let baseConfidence : ℚ := min ((totalSeverity : ℚ) / (cfg.spamThreshold : ℚ)) 1
  let confidence : ℚ :=
    match aiA with
    | some a => if a.isSpam then max baseConfidence a.confidence else baseConfidence
    | none => baseConfidence
  let baseAction : Action :=
    if cfg.spamThreshold ≤ totalSeverity then Action.reject
    else if cfg.flagThreshold ≤ totalSeverity then Action.flag
    else Action.allow
  match aiA with
  | some a =>
    if a.isSpam && decide (q08 < a.confidence) then
      { isSpam := true, confidence := confidence, reasons := reasons,
        action :=
          if a.severity = AISeverity.high then Action.reject
          else if cfg.spamThreshold ≤ totalSeverity then Action.reject else Action.flag,
        aiAnalysis := some a }
    else
      { isSpam := decide (cfg.flagThreshold ≤ totalSeverity), confidence := confidence,
        reasons := reasons, action := baseAction, aiAnalysis := some a }
  | none =>
    { isSpam := decide (cfg.flagThreshold ≤ totalSeverity), confidence := confidence,
      reasons := reasons, action := baseAction, aiAnalysis := none }

/-- The origin check (lines 27–38): when IP blocking is enabled and the post
carries a truthy client IP that the blocklist rejects, the early-return
decision; `none` otherwise. -/
def originRejection (cfg : DetectionConfig) (bl : IPBlocklist) (post : TwitterPost) :
    Option SpamDetectionResult :=
  if cfg.enableIPBlocking then
    match post.clientIP with
    | some ip =>
      if ip == "" then none
      else
        let v := validateIP bl ip
        if v.isBlocked then
          some { isSpam := true, confidence := 1,
                 reasons := [v.reason.getD "IP address is blocked"],
                 action := Action.reject, aiAnalysis := none }
        else none
    | none => none
  else none

/-- The pipeline after the origin check: validation early-return, then rule
evaluation, analyzer step and synthesis. -/
def afterOriginCheck (cfg : DetectionConfig) (post : TwitterPost)
    (ai : Option AIDetectionResult) : SpamDetectionResult :=
  let v := validatePost cfg post
  if v.isValid then
    let t := post.text.getD ""
    synthesize cfg (totalSeverityOf t) (reasonsOf t (effectiveAI cfg ai)) (effectiveAI cfg ai)
  else
    { isSpam := true, confidence := 1, reasons := v.reasons,
      action := Action.reject, aiAnalysis := none }

/-- `SpamDetector.detectSpam`, with the analyzer call's outcome passed as an
explicit argument. -/
def detectSpam (cfg : DetectionConfig) (bl : IPBlocklist) (post : TwitterPost)
    (ai : Option AIDetectionResult) : SpamDetectionResult :=
  (originRejection cfg bl post).getD (afterOriginCheck cfg post ai)

/-- The mutable state a `SpamDetector` instance owns. -/
structure DetectorState where
  config : DetectionConfig
  blocklist : IPBlocklist
deriving DecidableEq

/-- Stateful embedding of `IPBlocker.validateIP`: its body (lines 13–39)
only reads the blocklist — no statement assigns to it — so the call returns
the blocklist it was given. -/
def validateIPStateful (bl : IPBlocklist) (ip : String) : IPValidationResult × IPBlocklist :=
  (validateIP bl ip, bl)

/-- Stateful embedding of `detectSpam`: the method body statement by
statement, threading the detector state through every sub-call. -/
def detectSpamS (s : DetectorState) (post : TwitterPost) (ai : Option AIDetectionResult) :
    SpamDetectionResult × DetectorState :=
  if s.config.enableIPBlocking then
    match post.clientIP with
    | some ip =>
      if ip == "" then (afterOriginCheck s.config post ai, s)
      else
        match validateIPStateful s.blocklist ip with
        | (v, bl1) =>
          let s1 : DetectorState := { s with blocklist := bl1 }
          if v.isBlocked then
            ({ isSpam := true, confidence := 1,
               reasons := [v.reason.getD "IP address is blocked"],
               action := Action.reject, aiAnalysis := none }, s1)
          else (afterOriginCheck s1.config post ai, s1)
    | none => (afterOriginCheck s.config post ai, s)
  else (afterOriginCheck s.config post ai, s)

/-! ## Supporting lemmas -/

/-- A `find?` over a list ending in `x` reduces to testing `x` once every
earlier element fails the predicate. -/
lemma find?_append_unit {α : Type} (l : List α) (x : α) (p : α → Bool)
    (h : ∀ y ∈ l, p y = false) :
    (l ++ [x]).find? p = if p x then some x else none := by
  induction l with
  | nil =>
    simp only [List.nil_append, List.find?_cons]
    cases hp : p x <;> simp [hp, List.find?]
  | cons a l ih =>
    have ha := h a (by simp)
    simp only [List.cons_append, List.find?_cons, ha]
    exact ih (fun y hy => h y (by simp [hy]))

/-- Adding one string to the set leaves membership of every other string
unchanged. -/
lemma setAdd_contains_other (l : List String) (x y : String) (h : y ≠ x) :
    (setAdd l x).contains y = l.contains y := by
  unfold setAdd
  by_cases hm : x ∈ l
  · simp [hm]
  · simp [hm, h]

/-- The added string is a member afterwards. -/
lemma setAdd_contains_self (l : List String) (x : String) :
    (setAdd l x).contains x = true := by
  unfold setAdd
  by_cases hm : x ∈ l <;> simp [hm]

/-- `setAdd` preserves the set invariant (no duplicates). -/
lemma setAdd_nodup (l : List String) (x : String) (h : l.Nodup) :
    (setAdd l x).Nodup := by
  unfold setAdd
  by_cases hm : x ∈ l
  · simpa [hm] using h
  · simp [hm, List.nodup_append, h, List.Disjoint]
    intro a ha hax
    exact hm (hax ▸ ha)

/-- The empty string is not a valid address. -/
lemma isValidIP_empty : isValidIP "" = false := by decide

/-- A query string that is neither in the exact set nor inside any range is
not blocked. -/
lemma validateIP_not_blocked (bl : IPBlocklist) (s : String)
    (hns : bl.blockedIPs.contains s = false)
    (hnr : ∀ r ∈ bl.blockedRanges, isIPInRange s r = false) :
    (validateIP bl s).isBlocked = false := by
  unfold validateIP
  cases h1 : (s == "" || !isValidIP s) with
  | true => simp [h1]
  | false =>
    have hfind : bl.blockedRanges.find? (fun range => isIPInRange s range) = none :=
      List.find?_eq_none.mpr (fun r hr => by simp [hnr r hr])
    have hmem : s ∉ bl.blockedIPs := by simpa using hns
    simp [h1, hmem, hfind]

/-- A valid query string held in the exact set is blocked with the fixed
exact-match reason. -/
lemma validateIP_blocked_exact (bl : IPBlocklist) (ip : String)
    (hv : isValidIP ip = true) (hc : bl.blockedIPs.contains ip = true) :
    (validateIP bl ip).isBlocked = true := by
  have hemp : (ip == "") = false := by
    cases he : (ip == "") with
    | false => rfl
    | true =>
      have : ip = "" := by simpa using he
      rw [this] at hv
      exact absurd hv (by simp [isValidIP_empty])
  have hmem : ip ∈ bl.blockedIPs := by simpa using hc
  unfold validateIP
  simp [hemp, hv, hmem]

/-! ## Claim C6: CIDR validation -/

/-- C6 (corrected): `validateRange` accepts exactly the strings with one
slash, a valid address part, and a prefix that `parseInt` reads (longest
leading digit run after optional sign and whitespace, trailing junk
ignored) as a value within 0–32 for dotted forms, 0–128 otherwise.  The
original claim required the whole prefix part to be an integer; `parseInt`
is more lenient (see the counterexample). -/
theorem isValidCIDR_iff (cidr : String) :
    isValidCIDR cidr = true ↔
      ∃ ip maskStr n, jsSplit cidr '/' = [ip, maskStr] ∧ isValidIP ip = true ∧
        jsParseInt maskStr = some n ∧ 0 ≤ n ∧
        n ≤ (if ip.data.contains '.' then 32 else 128) := by
  constructor
  · intro h
    unfold isValidCIDR at h
    rcases hs : jsSplit cidr '/' with _ | ⟨ip, _ | ⟨maskStr, _ | _⟩⟩ <;> rw [hs] at h
    · simp at h
    · simp at h
    · have h' : (isValidIP ip &&
          (match jsParseInt maskStr with
           | none => false
           | some n =>
             if ip.data.contains '.' then decide (0 ≤ n) && decide (n ≤ 32)
             else decide (0 ≤ n) && decide (n ≤ 128))) = true := h
      rcases Bool.and_eq_true _ _ ▸ h' with ⟨hip, hmask⟩
      cases hp : jsParseInt maskStr with
      | none => rw [hp] at hmask; simp at hmask
      | some n =>
        rw [hp] at hmask
        have hmask' : (if ip.data.contains '.' then decide (0 ≤ n) && decide (n ≤ 32)
            else decide (0 ≤ n) && decide (n ≤ 128)) = true := hmask
        by_cases hc : ip.data.contains '.' = true
        · rw [if_pos hc] at hmask'
          rcases Bool.and_eq_true _ _ ▸ hmask' with ⟨h0, h32⟩
          exact ⟨ip, maskStr, n, rfl, hip, hp, of_decide_eq_true h0,
            by rw [if_pos hc]; exact_mod_cast of_decide_eq_true h32⟩
        · rw [if_neg hc] at hmask'
          rcases Bool.and_eq_true _ _ ▸ hmask' with ⟨h0, h128⟩
          exact ⟨ip, maskStr, n, rfl, hip, hp, of_decide_eq_true h0,
            by rw [if_neg hc]; exact_mod_cast of_decide_eq_true h128⟩
    · simp at h
  · rintro ⟨ip, maskStr, n, hs, hip, hp, h0, hn⟩
    unfold isValidCIDR
    rw [hs]
    show (isValidIP ip &&
        (match jsParseInt maskStr with
         | none => false
         | some n =>
           if ip.data.contains '.' then decide (0 ≤ n) && decide (n ≤ 32)
           else decide (0 ≤ n) && decide (n ≤ 128))) = true
    rw [hip, hp]
    by_cases hc : ip.data.contains '.' = true
    · rw [if_pos hc] at hn
      have hcm : '.' ∈ ip.data := by simpa using hc
      simp [h0, hn, hcm]
    · rw [if_neg hc] at hn
      have hcm : '.' ∉ ip.data := by simpa using hc
      simp [h0, hn, hcm]

/-- C6 counterexample: the claim asserts `validateRange("192.168.1.0/2x")`
is false because `2x` is not an integer, but `parseInt("2x", 10)` reads the
leading `2` and the code accepts the range. -/
theorem isValidCIDR_2x_cex : isValidCIDR "192.168.1.0/2x" = true ∧
    isValidCIDR "192.168.1.0/33" = false ∧ isValidCIDR "192.168.1.0" = false := by decide

/-! ## Claim C4: IPv4 range containment -/

/-- For prefix lengths 1–32 the JavaScript shift produces exactly the
spec-side mask with the top `p` bits set. -/
lemma jsMask_eq_specMask (p : ℕ) (hp1 : 1 ≤ p) (hp32 : p ≤ 32) :
    jsMask (some (p : ℤ)) = specMask p := by
  unfold jsMask specMask
  show (4294967296 - 2 ^ ((32 - (p : ℤ)) % 32).toNat) = 4294967296 - 2 ^ (32 - p)
  have h1 : (0 : ℤ) ≤ 32 - (p : ℤ) := by omega
  have h2 : (32 : ℤ) - (p : ℤ) < 32 := by omega
  rw [Int.emod_eq_of_lt h1 h2]
  have h3 : ((32 : ℤ) - (p : ℤ)).toNat = 32 - p := by omega
  rw [h3]

/-- C4 (corrected): for a valid dotted-quad `ip` and a CIDR whose last-listed
range is `network/p` with `1 ≤ p ≤ 32`, when `ip` is not in the exact set and
no earlier range matches, `check(ip)` blocks exactly when the 32-bit
encodings agree after masking with the top-`p`-bits mask.  The original
claim also covered `p = 0`, where the JavaScript shift `0xFFFFFFFF << 32`
reduces its count mod 32 and yields the full mask instead of 0 (see the
counterexample). -/
theorem ipv4RangeContainment (bl : IPBlocklist) (ip cidr network maskStr : String) (p : ℕ)
    (hsplit : jsSplit cidr '/' = [network, maskStr])
    (hparse : jsParseInt maskStr = some (p : ℤ))
    (hp1 : 1 ≤ p) (hp32 : p ≤ 32)
    (hipd : ip.data.contains '.' = true) (hnetd : network.data.contains '.' = true)
    (hipv : isValidIP ip = true)
    (hnotexact : bl.blockedIPs.contains ip = false)
    (pre : List String)
    (hranges : bl.blockedRanges = pre ++ [cidr])
    (hpre : ∀ r ∈ pre, isIPInRange ip r = false) :
    (validateIP bl ip).isBlocked = true ↔
      ipv4ToNumber ip &&& specMask p = ipv4ToNumber network &&& specMask p := by
  have hrange : isIPInRange ip cidr =
      (ipv4ToNumber ip &&& specMask p == ipv4ToNumber network &&& specMask p) := by
    unfold isIPInRange
    rw [hsplit]
    show (let maskBits := [maskStr].head?.bind jsParseInt
          if ip.data.contains '.' && network.data.contains '.' then
            isIPv4InRange ip network maskBits
          else if ip.data.contains ':' && network.data.contains ':' then
            isIPv6InRange ip network maskBits
          else false) = _
    simp only [List.head?, Option.some_bind, hparse, hipd, hnetd, Bool.and_self, if_true]
    unfold isIPv4InRange
    rw [jsMask_eq_specMask p hp1 hp32]
  have hemp : (ip == "") = false := by
    cases he : (ip == "") with
    | false => rfl
    | true =>
      have hip0 : ip = "" := by simpa using he
      rw [hip0] at hipd
      simp [List.contains] at hipd
  have hmem : ip ∉ bl.blockedIPs := by simpa using hnotexact
  unfold validateIP
  rw [hemp, hipv]
  simp only [Bool.not_true, Bool.or_false, if_false, hmem, if_neg, ite_false]
  rw [hranges, find?_append_unit pre cidr _ hpre, hrange]
  by_cases heq : ipv4ToNumber ip &&& specMask p = ipv4ToNumber network &&& specMask p
  · simp [heq, hmem]
  · simp [heq, hmem]

/-- C4 counterexample: the claim says a `/0` range matches every IPv4
address (its spec-side mask is 0, so the masked encodings agree), yet the
code does not block `1.2.3.4` under the range `0.0.0.0/0`. -/
theorem ipv4RangeContainment_cex :
    ipv4ToNumber "1.2.3.4" &&& specMask 0 = ipv4ToNumber "0.0.0.0" &&& specMask 0 ∧
    (validateIP { blockedIPs := [], blockedRanges := ["0.0.0.0/0"] } "1.2.3.4").isBlocked
      = false := by decide

/-- C4 witness: under the range `192.168.1.0/24` the address `192.168.1.1`
is blocked and `192.168.2.1` is not, via the containment theorem. -/
theorem ipv4RangeContainment_witness :
    (validateIP { blockedIPs := [], blockedRanges := ["192.168.1.0/24"] }
      "192.168.1.1").isBlocked = true ∧
    (validateIP { blockedIPs := [], blockedRanges := ["192.168.1.0/24"] }
      "192.168.2.1").isBlocked = false := by
  constructor
  · exact (ipv4RangeContainment { blockedIPs := [], blockedRanges := ["192.168.1.0/24"] }
      "192.168.1.1" "192.168.1.0/24" "192.168.1.0" "24" 24 (by decide) (by decide)
      (by decide) (by decide) (by decide) (by decide) (by decide) (by decide) []
      rfl (by intro r hr; simp at hr)).mpr (by decide)
  · have h := ipv4RangeContainment { blockedIPs := [], blockedRanges := ["192.168.1.0/24"] }
      "192.168.2.1" "192.168.1.0/24" "192.168.1.0" "24" 24 (by decide) (by decide)
      (by decide) (by decide) (by decide) (by decide) (by decide) (by decide) []
      rfl (by intro r hr; simp at hr)
    have hne : ¬ (ipv4ToNumber "192.168.2.1" &&& specMask 24 =
        ipv4ToNumber "192.168.1.0" &&& specMask 24) := by decide
    cases hb : (validateIP { blockedIPs := [], blockedRanges := ["192.168.1.0/24"] }
        "192.168.2.1").isBlocked with
    | false => rfl
    | true => exact absurd (h.mp hb) hne

/-! ## Claim C8: add / remove round trip -/

/-- C8 (corrected): for a valid address, `addAddress` returns true and the
address then checks as blocked; a subsequent `removeAddress` returns true,
and the address then checks as unblocked provided no blocked CIDR range
contains it.  The original claim promised `blocked = false` after removal
for every blocklist state, but a range covering the address still blocks it
(see the counterexample).  The `Nodup` hypothesis is the `Set` data-type
invariant of the exact-IP store. -/
theorem addRemoveRoundTrip (bl : IPBlocklist) (ip : String)
    (hnd : bl.blockedIPs.Nodup) (hv : isValidIP ip = true) :
    (addIP bl ip).1 = true ∧
    (validateIP (addIP bl ip).2 ip).isBlocked = true ∧
    (removeIP (addIP bl ip).2 ip).1 = true ∧
    ((∀ r ∈ bl.blockedRanges, isIPInRange ip r = false) →
      (validateIP (removeIP (addIP bl ip).2 ip).2 ip).isBlocked = false) := by
  have hadd : addIP bl ip = (true, { bl with blockedIPs := setAdd bl.blockedIPs ip }) := by
    unfold addIP
    rw [hv]
    rfl
  have hcontains : (setAdd bl.blockedIPs ip).contains ip = true :=
    setAdd_contains_self bl.blockedIPs ip
  refine ⟨by rw [hadd], ?_, ?_, ?_⟩
  · rw [hadd]
    exact validateIP_blocked_exact _ ip hv hcontains
  · rw [hadd]
    unfold removeIP
    exact hcontains
  · intro hr
    rw [hadd]
    unfold removeIP
    apply validateIP_not_blocked
    · have hnd2 : (setAdd bl.blockedIPs ip).Nodup := setAdd_nodup _ _ hnd
      have : ip ∉ (setAdd bl.blockedIPs ip).erase ip := hnd2.not_mem_erase
      simpa using this
    · exact hr

/-- C8 counterexample: with the range `192.168.1.0/24` on the blocklist,
adding and then removing the exact address `192.168.1.5` (both returning
true) still leaves the address blocked, contradicting the claimed
`blocked = false` after removal. -/
theorem addRemoveRoundTrip_cex :
    (addIP { blockedIPs := [], blockedRanges := ["192.168.1.0/24"] } "192.168.1.5").1
      = true ∧
    (removeIP (addIP { blockedIPs := [], blockedRanges := ["192.168.1.0/24"] }
      "192.168.1.5").2 "192.168.1.5").1 = true ∧
    (validateIP (removeIP (addIP { blockedIPs := [], blockedRanges := ["192.168.1.0/24"] }
      "192.168.1.5").2 "192.168.1.5").2 "192.168.1.5").isBlocked = true := by decide

/-- C8 witness: the round trip on a blocklist whose ranges do not cover the
address, via the round-trip theorem. -/
theorem addRemoveRoundTrip_witness :
    (addIP { blockedIPs := ["10.0.0.1"], blockedRanges := [] } "1.2.3.4").1 = true ∧
    (validateIP (addIP { blockedIPs := ["10.0.0.1"], blockedRanges := [] }
      "1.2.3.4").2 "1.2.3.4").isBlocked = true ∧
    (removeIP (addIP { blockedIPs := ["10.0.0.1"], blockedRanges := [] }
      "1.2.3.4").2 "1.2.3.4").1 = true ∧
    (validateIP (removeIP (addIP { blockedIPs := ["10.0.0.1"], blockedRanges := [] }
      "1.2.3.4").2 "1.2.3.4").2 "1.2.3.4").isBlocked = false := by
  have h := addRemoveRoundTrip { blockedIPs := ["10.0.0.1"], blockedRanges := [] }
    "1.2.3.4" (by decide) (by decide)
  exact ⟨h.1, h.2.1, h.2.2.1, h.2.2.2 (by intro r hr; simp at hr)⟩

/-! ## Claim C9: case sensitivity of exact matches -/

/-- C9 (corrected): exact-address membership is case-sensitive, not
case-normalized.  Adding `ip` never makes a differently spelled string `s`
(in particular a differently-cased spelling of the same address) blocked:
if `s` was not already in the exact set and no range contains it, `check(s)`
still reports not blocked after `addAddress(ip)`. -/
theorem exactMatchCaseSensitive (bl : IPBlocklist) (ip s : String)
    (hne : s ≠ ip) (hns : bl.blockedIPs.contains s = false)
    (hnr : ∀ r ∈ bl.blockedRanges, isIPInRange s r = false) :
    (validateIP (addIP bl ip).2 s).isBlocked = false := by
  unfold addIP
  by_cases hv : isValidIP ip = true
  · rw [hv]
    show (validateIP { bl with blockedIPs := setAdd bl.blockedIPs ip } s).isBlocked = false
    apply validateIP_not_blocked
    · rw [setAdd_contains_other bl.blockedIPs ip s hne]
      exact hns
    · exact hnr
  · have hv2 : isValidIP ip = false := by simpa using hv
    rw [hv2]
    show (validateIP bl s).isBlocked = false
    exact validateIP_not_blocked bl s hns hnr

/-- C9 counterexample: adding the upper-cased spelling of a valid IPv6
address succeeds, yet checking the lower-cased spelling of the same address
reports not blocked — the claim predicted `blocked = true` via a
case-normalized exact match. -/
theorem exactMatchCaseSensitive_cex :
    (addIP emptyBlocklist "2001:0DB8:0000:0000:0000:0000:0000:0001").1 = true ∧
    (validateIP (addIP emptyBlocklist "2001:0DB8:0000:0000:0000:0000:0000:0001").2
      "2001:0db8:0000:0000:0000:0000:0000:0001").isBlocked = false := by decide

/-- C9 witness: the corrected statement at the concrete upper/lower-cased
pair of spellings. -/
theorem exactMatchCaseSensitive_witness :
    (validateIP (addIP emptyBlocklist "2001:0DB8:0000:0000:0000:0000:0000:0001").2
      "2001:0db8:0000:0000:0000:0000:0000:0001").isBlocked = false :=
  exactMatchCaseSensitive emptyBlocklist "2001:0DB8:0000:0000:0000:0000:0000:0001"
    "2001:0db8:0000:0000:0000:0000:0000:0001" (by decide) (by decide)
    (by intro r hr; simp [emptyBlocklist] at hr)

/-! ## Decision-engine lemmas -/

/-- Concrete posts used to instantiate the decision-engine theorems. -/
def postPark : TwitterPost :=
  { text := some "Just had a great day at the park! The weather was perfect.",
    username := some "user123", timestamp := none, clientIP := none }

/-- A post triggering the `spam_keywords` rule. -/
def spamPost : TwitterPost :=
  { text := some "FREE MONEY!!! CLICK HERE NOW!!!",
    username := some "spammer", timestamp := none, clientIP := none }

/-- A 281-character text, one over the default maximum. -/
def longText : String := String.mk (List.replicate 281 'a')

/-- When the origin check passes and validation succeeds, `detectSpam` is
the synthesis of the rule score, the reasons and the effective analyzer
verdict. -/
lemma detectSpam_valid_eq (cfg : DetectionConfig) (bl : IPBlocklist) (post : TwitterPost)
    (ai : Option AIDetectionResult)
    (h1 : originRejection cfg bl post = none)
    (h2 : (validatePost cfg post).isValid = true) :
    detectSpam cfg bl post ai =
      synthesize cfg (totalSeverityOf (post.text.getD ""))
        (reasonsOf (post.text.getD "") (effectiveAI cfg ai)) (effectiveAI cfg ai) := by
  unfold detectSpam afterOriginCheck
  rw [h1]
  simp [Option.getD, h2]

/-- When the origin check passes and validation fails, `detectSpam` is the
fixed rejection built from the validation reasons. -/
lemma detectSpam_invalid_eq (cfg : DetectionConfig) (bl : IPBlocklist) (post : TwitterPost)
    (ai : Option AIDetectionResult)
    (h1 : originRejection cfg bl post = none)
    (h2 : (validatePost cfg post).isValid = false) :
    detectSpam cfg bl post ai =
      { isSpam := true, confidence := 1, reasons := (validatePost cfg post).reasons,
        action := Action.reject, aiAnalysis := none } := by
  unfold detectSpam afterOriginCheck
  rw [h1]
  simp [Option.getD, h2]

/-- Without a qualifying override, `synthesize` reports the baseline action
and `isSpam`. -/
lemma synthesize_base (cfg : DetectionConfig) (total : Int) (reasons : List String)
    (aiA : Option AIDetectionResult)
    (h : ∀ a, aiA = some a → a.isSpam = true → ¬ q08 < a.confidence) :
    (synthesize cfg total reasons aiA).action =
      (if cfg.spamThreshold ≤ total then Action.reject
       else if cfg.flagThreshold ≤ total then Action.flag
       else Action.allow) ∧
    (synthesize cfg total reasons aiA).isSpam = decide (cfg.flagThreshold ≤ total) := by
  cases aiA with
  | none => exact ⟨rfl, rfl⟩
  | some a =>
    have hcond : (a.isSpam && decide (q08 < a.confidence)) = false := by
      cases hs : a.isSpam with
      | false => simp
      | true => simp [decide_eq_false (h a rfl hs)]
    unfold synthesize
    simp [hcond]

/-- An early origin rejection always carries `isSpam = true`,
`confidence = 1`, a single reason and the reject action. -/
lemma originRejection_some (cfg : DetectionConfig) (bl : IPBlocklist) (post : TwitterPost)
    (r : SpamDetectionResult) (h : originRejection cfg bl post = some r) :
    r.isSpam = true ∧ r.confidence = 1 ∧ r.reasons ≠ [] ∧ r.action = Action.reject := by
  unfold originRejection at h
  by_cases hE : cfg.enableIPBlocking = true
  · rw [if_pos hE] at h
    cases hip : post.clientIP with
    | none => rw [hip] at h; exact absurd h (by simp)
    | some ip =>
      rw [hip] at h
      have h' : (if ip == "" then (none : Option SpamDetectionResult)
          else
            if (validateIP bl ip).isBlocked then
              some { isSpam := true, confidence := 1,
                     reasons := [(validateIP bl ip).reason.getD "IP address is blocked"],
                     action := Action.reject, aiAnalysis := none }
            else none) = some r := h
      cases hemp : (ip == "") with
      | true => rw [hemp] at h'; exact absurd h' (by simp)
      | false =>
        rw [hemp] at h'
        simp only [Bool.false_eq_true, if_false] at h'
        cases hb : (validateIP bl ip).isBlocked with
        | false => rw [hb] at h'; exact absurd h' (by simp)
        | true =>
          rw [hb] at h'
          simp only [if_true] at h'
          rcases Option.some.inj h' with rfl
          exact ⟨rfl, rfl, by simp, rfl⟩
  · rw [if_neg hE] at h
    exact absurd h (by simp)

/-- A failed validation leaves at least one reason. -/
lemma validatePost_invalid_reasons (cfg : DetectionConfig) (post : TwitterPost)
    (h : (validatePost cfg post).isValid = false) :
    (validatePost cfg post).reasons ≠ [] := by
  have he : (validatePost cfg post).isValid = (validatePost cfg post).reasons.isEmpty := rfl
  rw [he] at h
  intro hnil
  rw [hnil] at h
  simp at h

/-! ## Claim C1: baseline synthesis -/

/-- C1 (confirmed): for a post that passes the origin check and validation,
with no qualifying analyzer override, the action is reject / flag / allow by
comparing the summed severity of the triggered rules against the two
thresholds, and `isSpam` is exactly `totalSeverity ≥ flagThreshold`. -/
theorem baselineSynthesis (cfg : DetectionConfig) (bl : IPBlocklist) (post : TwitterPost)
    (ai : Option AIDetectionResult)
    (h1 : originRejection cfg bl post = none)
    (h2 : (validatePost cfg post).isValid = true)
    (h3 : ∀ a, effectiveAI cfg ai = some a → a.isSpam = true → ¬ q08 < a.confidence) :
    (detectSpam cfg bl post ai).action =
      (if cfg.spamThreshold ≤ totalSeverityOf (post.text.getD "") then Action.reject
       else if cfg.flagThreshold ≤ totalSeverityOf (post.text.getD "") then Action.flag
       else Action.allow) ∧
    (detectSpam cfg bl post ai).isSpam =
      decide (cfg.flagThreshold ≤ totalSeverityOf (post.text.getD "")) := by
  rw [detectSpam_valid_eq cfg bl post ai h1 h2]
  exact synthesize_base cfg _ _ _ h3

/-- C1 witness: the clean park post under the default configuration is
allowed and not spam. -/
theorem baselineSynthesis_witness :
    (detectSpam defaultConfig emptyBlocklist postPark none).action = Action.allow ∧
    (detectSpam defaultConfig emptyBlocklist postPark none).isSpam = false := by
  have h := baselineSynthesis defaultConfig emptyBlocklist postPark none rfl (by decide)
    (fun a ha _ => by simp [effectiveAI, defaultConfig] at ha)
  exact ⟨by rw [h.1]; decide, by rw [h.2]; decide⟩

/-! ## Claim C2: analyzer override -/

/-- C2 (confirmed): with an effective analyzer verdict marking spam at
confidence above `0.8`, `isSpam` is forced true, and the action is reject
for a high analyzer severity (even below the spam threshold) and otherwise
reject or flag by the spam threshold alone. -/
theorem overrideSynthesis (cfg : DetectionConfig) (bl : IPBlocklist) (post : TwitterPost)
    (ai : Option AIDetectionResult) (a : AIDetectionResult)
    (h1 : originRejection cfg bl post = none)
    (h2 : (validatePost cfg post).isValid = true)
    (ha : effectiveAI cfg ai = some a)
    (hs : a.isSpam = true)
    (hc : q08 < a.confidence) :
    (detectSpam cfg bl post ai).isSpam = true ∧
    (detectSpam cfg bl post ai).action =
      (if a.severity = AISeverity.high then Action.reject
       else if cfg.spamThreshold ≤ totalSeverityOf (post.text.getD "") then Action.reject
       else Action.flag) := by
  rw [detectSpam_valid_eq cfg bl post ai h1 h2, ha]
  unfold synthesize
  simp [hs, hc]

/-- The high-severity spam verdict at confidence `0.9` used by the C2
witness. -/
def aiHighVerdict : AIDetectionResult :=
  { isSpam := true, confidence := ⟨9, 10, by norm_num, by norm_num⟩,
    reasoning := "promotional spam", categories := ["spam"],
    severity := AISeverity.high }

/-- The default configuration with AI detection enabled. -/
def aiConfig : DetectionConfig := { defaultConfig with enableAIDetection := true }

/-- C2 witness: a high-severity spam verdict at confidence `0.9` forces a
reject on the clean park post, whose rule severity is far below the spam
threshold. -/
theorem overrideSynthesis_witness :
    (detectSpam aiConfig emptyBlocklist postPark (some aiHighVerdict)).isSpam = true ∧
    (detectSpam aiConfig emptyBlocklist postPark (some aiHighVerdict)).action
      = Action.reject := by
  have h := overrideSynthesis aiConfig emptyBlocklist postPark (some aiHighVerdict)
    aiHighVerdict rfl (by decide) rfl rfl (by decide)
  exact ⟨h.1, by rw [h.2]; decide⟩

/-! ## Claim C5: validation early return -/

/-- C5 (corrected): for a post that passes the origin check, any validation
violation (missing/empty text, over-long text, under-length trimmed text)
returns the immediate rejection carrying exactly the violation messages; in
particular over-long text puts the length-exceeded message among the
reasons.  The original claim omitted the origin-check condition: a post from
a blocked client IP is rejected with the IP reason instead, not the
validation messages (see the counterexample). -/
theorem invalidPostRejection (cfg : DetectionConfig) (bl : IPBlocklist) (post : TwitterPost)
    (ai : Option AIDetectionResult)
    (h1 : originRejection cfg bl post = none)
    (h2 : (validatePost cfg post).isValid = false) :
    detectSpam cfg bl post ai =
      { isSpam := true, confidence := 1, reasons := (validatePost cfg post).reasons,
        action := Action.reject, aiAnalysis := none } ∧
    (∀ t, post.text = some t → (t == "") = false →
      cfg.maxTextLength < (jsLength t : Int) →
      maxLengthMsg cfg ∈ (detectSpam cfg bl post ai).reasons) := by
  have he := detectSpam_invalid_eq cfg bl post ai h1 h2
  refine ⟨he, ?_⟩
  intro t ht hne hlen
  rw [he]
  show maxLengthMsg cfg ∈ (validatePost cfg post).reasons
  unfold validatePost
  rw [ht]
  simp only [hne, Bool.false_eq_true, if_false]
  rw [if_pos hlen]
  simp

/-- The over-long post from a blocked client address used by the C5
counterexample. -/
def blockedLongPost : TwitterPost :=
  { text := some longText, username := none, timestamp := none, clientIP := some "1.2.3.4" }

/-- The blocklist holding the counterexample's client address. -/
def cexBlocklist : IPBlocklist := { blockedIPs := ["1.2.3.4"], blockedRanges := [] }

set_option maxRecDepth 8000 in
/-- C5 counterexample: a post whose text exceeds the maximum length but
whose client IP is blocked is rejected with the IP reason only — the
length-exceeded message claimed for the reasons is absent. -/
theorem invalidPostRejection_cex :
    defaultConfig.maxTextLength < (jsLength (blockedLongPost.text.getD "") : Int) ∧
    detectSpam defaultConfig cexBlocklist blockedLongPost none =
      { isSpam := true, confidence := 1, reasons := ["IP address is in blocklist"],
        action := Action.reject, aiAnalysis := none } ∧
    maxLengthMsg defaultConfig ∉
      (detectSpam defaultConfig cexBlocklist blockedLongPost none).reasons := by decide

/-- The over-long post with no client address used by the C5 witness. -/
def longPost : TwitterPost :=
  { text := some longText, username := none, timestamp := none, clientIP := none }

set_option maxRecDepth 8000 in
/-- C5 witness: the over-long post is rejected with the length-exceeded
message among the reasons, via the early-return theorem. -/
theorem invalidPostRejection_witness :
    maxLengthMsg defaultConfig ∈
      (detectSpam defaultConfig emptyBlocklist longPost none).reasons := by
  have h := invalidPostRejection defaultConfig emptyBlocklist longPost none rfl (by decide)
  exact h.2 longText rfl (by decide) (by decide)

/-! ## Claim C3: confidence bounds -/

/-- Every rule in the table has a nonnegative severity. -/
lemma severities_nonneg : ∀ rule ∈ spamRules, 0 ≤ rule.severity := by decide

/-- Summing nonnegative severities from a nonnegative start stays
nonnegative. -/
lemma foldl_severity_nonneg (l : List SpamRule) (h : ∀ rule ∈ l, 0 ≤ rule.severity) :
    ∀ init : Int, 0 ≤ init → 0 ≤ l.foldl (fun sum rule => sum + rule.severity) init := by
  induction l with
  | nil => intro init h0; simpa using h0
  | cons a l ih =>
    intro init h0
    exact ih (fun rule hr => h rule (by simp [hr]))
      (init + a.severity) (by have := h a (by simp); omega)

/-- The rule score is never negative. -/
lemma totalSeverityOf_nonneg (t : String) : 0 ≤ totalSeverityOf t := by
  unfold totalSeverityOf
  exact foldl_severity_nonneg _
    (fun rule hr => severities_nonneg rule (List.mem_of_mem_filter hr)) 0 le_rfl

/-- A sanitized verdict's confidence lies in the unit interval. -/
lemma sanitizeVerdict_confidence_bounds (raw : RawVerdict) :
    0 ≤ (sanitizeVerdict raw).confidence ∧ (sanitizeVerdict raw).confidence ≤ 1 := by
  unfold sanitizeVerdict
  constructor
  · exact le_max_left 0 _
  · exact max_le zero_le_one (min_le_left 1 _)

/-- The confidence field of a synthesis. -/
lemma synthesize_confidence (cfg : DetectionConfig) (total : Int) (reasons : List String)
    (aiA : Option AIDetectionResult) :
    (synthesize cfg total reasons aiA).confidence =
      (match aiA with
       | some a =>
         if a.isSpam then
           max (min ((total : ℚ) / (cfg.spamThreshold : ℚ)) 1) a.confidence
         else min ((total : ℚ) / (cfg.spamThreshold : ℚ)) 1
       | none => min ((total : ℚ) / (cfg.spamThreshold : ℚ)) 1) := by
  cases aiA with
  | none => rfl
  | some a =>
    unfold synthesize
    by_cases hcond : (a.isSpam && decide (q08 < a.confidence)) = true
    · simp only [hcond, if_true]
    · simp only [Bool.not_eq_true] at hcond
      simp only [hcond, Bool.false_eq_true, if_false]

/-- C3 (corrected): the decision confidence stays in `[0, 1]` for every
post, every blocklist, every analyzer outcome the adapter can produce
(absent, fallback, or sanitized), provided the configured spam threshold is
positive.  The original claim allowed every configuration, but a
non-positive `spamThreshold` (the code never guards it) drives
`totalSeverity / spamThreshold` negative (see the counterexample). -/
theorem confidenceBounds (cfg : DetectionConfig) (bl : IPBlocklist) (post : TwitterPost)
    (ai : Option AIDetectionResult)
    (hth : 0 < cfg.spamThreshold)
    (hao : analyzerOutcome ai) :
    0 ≤ (detectSpam cfg bl post ai).confidence ∧
    (detectSpam cfg bl post ai).confidence ≤ 1 := by
  have haiB : ∀ a, effectiveAI cfg ai = some a → 0 ≤ a.confidence ∧ a.confidence ≤ 1 := by
    intro a haa
    unfold effectiveAI at haa
    by_cases hE : cfg.enableAIDetection = true
    · rw [if_pos hE] at haa
      rcases hao with h | h | ⟨raw, h⟩ <;> rw [h] at haa
      · exact absurd haa (by simp)
      · rcases Option.some.inj haa with rfl
        exact ⟨le_rfl, zero_le_one⟩
      · rcases Option.some.inj haa with rfl
        exact sanitizeVerdict_confidence_bounds raw
    · rw [if_neg hE] at haa
      exact absurd haa (by simp)
  unfold detectSpam
  cases ho : originRejection cfg bl post with
  | some r =>
    have hr := (originRejection_some cfg bl post r ho).2.1
    simp only [Option.getD]
    rw [hr]
    exact ⟨zero_le_one, le_rfl⟩
  | none =>
    simp only [Option.getD]
    unfold afterOriginCheck
    by_cases hv : (validatePost cfg post).isValid = true
    · simp only [hv, if_true]
      rw [synthesize_confidence]
      have hbase : 0 ≤ min ((totalSeverityOf (post.text.getD "") : ℚ) /
          (cfg.spamThreshold : ℚ)) 1 ∧
          min ((totalSeverityOf (post.text.getD "") : ℚ) / (cfg.spamThreshold : ℚ)) 1 ≤ 1 := by
        constructor
        · apply le_min _ zero_le_one
          apply div_nonneg
          · exact_mod_cast totalSeverityOf_nonneg _
          · exact_mod_cast hth.le
        · exact min_le_right _ _
      cases haA : effectiveAI cfg ai with
      | none => exact hbase
      | some a =>
        rcases haiB a haA with ⟨ha0, ha1⟩
        cases hs : a.isSpam with
        | false =>
          simp only [hs, Bool.false_eq_true, if_false]
          exact hbase
        | true =>
          simp only [hs, if_true]
          exact ⟨le_trans hbase.1 (le_max_left _ _), max_le hbase.2 ha1⟩
    · have hv2 : (validatePost cfg post).isValid = false := by simpa using hv
      simp only [hv2, Bool.false_eq_true, if_false]
      exact ⟨zero_le_one, le_rfl⟩

/-- The default configuration with a negative spam threshold, as a partial
update may set it. -/
def negThresholdConfig : DetectionConfig := { defaultConfig with spamThreshold := -1 }

/-- A short post triggering only the profanity rule (severity 3). -/
def profanePost : TwitterPost :=
  { text := some "fuck", username := none, timestamp := none, clientIP := none }

/-- C3 counterexample: with `spamThreshold = -1` the profane post's
confidence is `min (3 / -1) 1 = -3`, outside `[0, 1]`. -/
theorem confidenceBounds_cex :
    (detectSpam negThresholdConfig emptyBlocklist profanePost none).confidence < 0 := by
  have he : detectSpam negThresholdConfig emptyBlocklist profanePost none =
      synthesize negThresholdConfig (totalSeverityOf "fuck") (reasonsOf "fuck" none) none :=
    rfl
  rw [he, synthesize_confidence]
  have ht : totalSeverityOf "fuck" = 3 := by decide
  rw [ht]
  norm_num [negThresholdConfig, defaultConfig, min_def]

/-- C3 witness: the bounds at the default configuration, empty blocklist,
park post and absent analyzer verdict. -/
theorem confidenceBounds_witness :
    0 ≤ (detectSpam defaultConfig emptyBlocklist postPark none).confidence ∧
    (detectSpam defaultConfig emptyBlocklist postPark none).confidence ≤ 1 :=
  confidenceBounds defaultConfig emptyBlocklist postPark none (by decide) (Or.inl rfl)

/-! ## Claim C7: spam decisions carry reasons -/

/-- The reasons field of a synthesis is its reasons argument. -/
lemma synthesize_reasons (cfg : DetectionConfig) (total : Int) (reasons : List String)
    (aiA : Option AIDetectionResult) :
    (synthesize cfg total reasons aiA).reasons = reasons := by
  cases aiA with
  | none => rfl
  | some a =>
    unfold synthesize
    by_cases hcond : (a.isSpam && decide (q08 < a.confidence)) = true
    · simp only [hcond, if_true]
    · simp only [Bool.not_eq_true] at hcond
      simp only [hcond, Bool.false_eq_true, if_false]

/-- The isSpam field of a synthesis whose override condition fails. -/
lemma synthesize_isSpam_no_override (cfg : DetectionConfig) (total : Int)
    (reasons : List String) (aiA : Option AIDetectionResult)
    (h : ∀ a, aiA = some a → (a.isSpam && decide (q08 < a.confidence)) = false) :
    (synthesize cfg total reasons aiA).isSpam = decide (cfg.flagThreshold ≤ total) := by
  cases aiA with
  | none => rfl
  | some a =>
    unfold synthesize
    simp only [h a rfl, Bool.false_eq_true, if_false]

/-- A positive rule score means some rule triggered, so the description list
is not empty. -/
lemma triggeredDescriptions_ne_nil (t : String) (h : 0 < totalSeverityOf t) :
    triggeredDescriptions t ≠ [] := by
  intro hnil
  unfold triggeredDescriptions at hnil
  rw [List.map_eq_nil_iff] at hnil
  unfold totalSeverityOf at h
  rw [hnil] at h
  simp at h

/-- C7 (corrected): whenever the decision says spam, the reason list is
non-empty — for every post, blocklist and analyzer outcome, provided the
configured flag threshold is positive.  The original claim allowed every
configuration, but with `flagThreshold ≤ 0` a post triggering no rule is
marked spam with an empty reason list (see the counterexample). -/
theorem isSpamHasReasons (cfg : DetectionConfig) (bl : IPBlocklist) (post : TwitterPost)
    (ai : Option AIDetectionResult)
    (hft : 0 < cfg.flagThreshold)
    (hs : (detectSpam cfg bl post ai).isSpam = true) :
    (detectSpam cfg bl post ai).reasons ≠ [] := by
  cases ho : originRejection cfg bl post with
  | some r =>
    have he : detectSpam cfg bl post ai = r := by
      unfold detectSpam
      rw [ho]
      rfl
    rw [he]
    exact (originRejection_some cfg bl post r ho).2.2.1
  | none =>
    by_cases hv : (validatePost cfg post).isValid = true
    · have he := detectSpam_valid_eq cfg bl post ai ho hv
      rw [he] at hs ⊢
      rw [synthesize_reasons]
      cases haA : effectiveAI cfg ai with
      | none =>
        rw [haA] at hs
        have hdec : decide (cfg.flagThreshold ≤ totalSeverityOf (post.text.getD "")) = true :=
          (synthesize_isSpam_no_override cfg _ _ none (by intro a ha; simp at ha)) ▸ hs
        have hpos : 0 < totalSeverityOf (post.text.getD "") :=
          lt_of_lt_of_le hft (of_decide_eq_true hdec)
        unfold reasonsOf
        simp [List.append_eq_nil, triggeredDescriptions_ne_nil _ hpos]
      | some a =>
        rw [haA] at hs
        by_cases hcond : (a.isSpam && decide (q08 < a.confidence)) = true
        · rcases Bool.and_eq_true _ _ ▸ hcond with ⟨hsp, hc8⟩
          have hc7 : (a.isSpam && decide (q07 < a.confidence)) = true := by
            have : q07 < a.confidence :=
              lt_trans (by decide) (of_decide_eq_true hc8)
            simp [hsp, this]
          unfold reasonsOf
          simp [List.append_eq_nil, hc7]
        · have hcf : (a.isSpam && decide (q08 < a.confidence)) = false := by
            simpa using hcond
          have hdec : decide (cfg.flagThreshold ≤ totalSeverityOf (post.text.getD "")) = true :=
            (synthesize_isSpam_no_override cfg _ _ (some a)
              (by intro b hb; rcases Option.some.inj hb with rfl; exact hcf)) ▸ hs
          have hpos : 0 < totalSeverityOf (post.text.getD "") :=
            lt_of_lt_of_le hft (of_decide_eq_true hdec)
          unfold reasonsOf
          simp [List.append_eq_nil, triggeredDescriptions_ne_nil _ hpos]
    · have hv2 : (validatePost cfg post).isValid = false := by simpa using hv
      have he := detectSpam_invalid_eq cfg bl post ai ho hv2
      rw [he]
      exact validatePost_invalid_reasons cfg post hv2

/-- The default configuration with the flag threshold lowered to zero. -/
def zeroFlagConfig : DetectionConfig := { defaultConfig with flagThreshold := 0 }

/-- A short post triggering no rule at all. -/
def blandPost : TwitterPost :=
  { text := some "Hello there.", username := none, timestamp := none, clientIP := none }

/-- C7 counterexample: with `flagThreshold = 0` a post triggering no rule is
marked spam (`0 ≥ 0`) while its reason list is empty. -/
theorem isSpamHasReasons_cex :
    (detectSpam zeroFlagConfig emptyBlocklist blandPost none).isSpam = true ∧
    (detectSpam zeroFlagConfig emptyBlocklist blandPost none).reasons = [] := by decide

/-- C7 witness: the keyword-triggering post is flagged as spam under the
default configuration, and the theorem yields its non-empty reasons. -/
theorem isSpamHasReasons_witness :
    (detectSpam defaultConfig emptyBlocklist spamPost none).reasons ≠ [] :=
  isSpamHasReasons defaultConfig emptyBlocklist spamPost none (by decide) (by decide)

/-! ## Claim C10: detection leaves the detector state unchanged -/

/-- C10 (confirmed): one `detectSpam` call leaves the configuration and the
blocklist exactly as they were, and its decision is the pure function of the
pre-call state. -/
theorem detectSpamPreservesState (s : DetectorState) (post : TwitterPost)
    (ai : Option AIDetectionResult) :
    (detectSpamS s post ai).2 = s ∧
    (detectSpamS s post ai).1 = detectSpam s.config s.blocklist post ai := by
  unfold detectSpamS detectSpam originRejection validateIPStateful
  by_cases hE : s.config.enableIPBlocking = true
  · simp only [hE, if_true]
    cases hip : post.clientIP with
    | none => exact ⟨rfl, rfl⟩
    | some ip =>
      cases hemp : (ip == "") with
      | true => simp only [hemp, if_true]; exact ⟨by trivial, by trivial⟩
      | false =>
        simp only [hemp, Bool.false_eq_true, if_false]
        cases hb : (validateIP s.blocklist ip).isBlocked with
        | true =>
          simp only [hb, if_true, Option.getD]
          exact ⟨by trivial, by trivial⟩
        | false =>
          simp only [hb, Bool.false_eq_true, if_false, Option.getD]
          exact ⟨by trivial, by trivial⟩
  · have hE2 : s.config.enableIPBlocking = false := by simpa using hE
    simp only [hE2, Bool.false_eq_true, if_false, Option.getD]
    exact ⟨by trivial, by trivial⟩

end SpamService
